import Mathlib

/-!
Verification of the `memory-mcp-agent` repository core: the ReAct agent loop
and protocol parser (`src/react_agent.py`, `src/agents/main_agent.py`), the
built-in tools (`calculator`, `web_search` and the SerpAPI fallback chain in
`src/tools/search_with_serp_api.py`, `src/tools/web_search.py`,
`src/tools/verify_result.py`), and the chat-history formatting in
`src/utils/helpers.py`.

Python strings are modelled as `List Char`; the inputs exercised by the
properties are ASCII, so the ASCII versions of Python's character classes
(`str.isspace`, the regex classes `\s` and `\w`) are used throughout.
Recursions that are not structural carry an explicit fuel argument (always
instantiated with a provably adequate amount) so that every definition
evaluates inside the kernel.
-/

namespace MemoryAgent

/-! ## Python string primitives -/

/-- ASCII whitespace, as matched by Python's `str.strip`, `str.isspace` and
the regex class `\s`: space, tab, newline, carriage return, vertical tab,
form feed. -/
def pyIsSpace (c : Char) : Bool :=
  c = ' ' || c = '\t' || c = '\n' || c = '\r' || c = '\x0b' || c = '\x0c'

/-- ASCII word characters, the regex class `\w`: letters, digits, underscore. -/
def pyIsWord (c : Char) : Bool :=
  c.isAlpha || c.isDigit || c = '_'

/-- Python `str.strip()`: remove leading and trailing whitespace. -/
def pyStrip (l : List Char) : List Char :=
  ((l.dropWhile pyIsSpace).reverse.dropWhile pyIsSpace).reverse

/-- Python `str.lower()` (ASCII). -/
def pyLower (l : List Char) : List Char :=
  l.map Char.toLower

/-- Python `str.upper()` (ASCII). -/
def pyUpper (l : List Char) : List Char :=
  l.map Char.toUpper

/-- Index of the first occurrence of `needle` in `hay` (Python `str.find`,
restricted to the found case). -/
def findSub (needle : List Char) : List Char → Option Nat
  | [] => if needle = [] then some 0 else none
  | c :: t =>
    if needle.isPrefixOf (c :: t) then some 0
    else (findSub needle t).map (· + 1)

/-- Python's `in` operator on strings: substring containment. -/
def containsSub (needle hay : List Char) : Bool :=
  (findSub needle hay).isSome

/-- Fueled worker for Python `str.split(sep)`: split on every occurrence of
`sep`, left to right.  Structural on the fuel so that it evaluates in the
kernel; `pySplit` supplies adequate fuel. -/
def pySplitF (sep : List Char) : Nat → List Char → List (List Char)
  | 0, l => [l]
  | fuel + 1, l =>
    match findSub sep l with
    | none => [l]
    | some i => l.take i :: pySplitF sep fuel (l.drop (i + sep.length))

/-- Python `str.split(sep)` for a nonempty separator. -/
def pySplit (sep : List Char) (l : List Char) : List (List Char) :=
  if sep.length = 0 then [l] else pySplitF sep l.length l

/-- Python `str.replace(old, new)` (all non-overlapping occurrences, left to
right): equivalent to splitting on `old` and joining with `new`. -/
def pyReplace (old new l : List Char) : List Char :=
  List.intercalate new (pySplit old l)

/-- Join a list of strings with newlines, Python `"\n".join(...)`. -/
def joinNL (ls : List (List Char)) : List Char :=
  List.intercalate ['\n'] ls

/-! ## Protocol parser (`ReActAgent.run`, `src/agents/main_agent.py` lines
164–174 and identically `src/react_agent.py` lines 96–106) -/

/-- The final-answer marker the loop tests with `"Final Answer:" in
assistant_message`. -/
def finalMarker : List Char := "Final Answer:".toList

/-- `assistant_message.split("Final Answer:")[-1].strip()`: the text after
the last occurrence of the marker, stripped. -/
def extractFinalAnswer (t : List Char) : List Char :=
  pyStrip ((pySplit finalMarker t).getLastD [])

/-- Written from the claim wording, for comparison with the code: "the
extracted result is everything after the FIRST occurrence of the marker,
trimmed of leading and trailing whitespace". -/
def specAfterFirstMarker (t : List Char) : Option (List Char) :=
  (findSub finalMarker t).map (fun i => pyStrip (t.drop (i + finalMarker.length)))

/-- The literal head of the action pattern `r"Action:\s*(\w+):\s*(.+)"`. -/
def actionMarker : List Char := "Action:".toList

/-- Attempt to match `Action:\s*(\w+):\s*(.+)` at the head of `l`, returning
`(group 1, group 2)`.  The regex is deterministic here: `\s` and `\w` are
disjoint, and a word character never equals `:`, so the maximal-munch runs
are the only candidates; the one genuine backtrack — the `\s*` before `(.+)`
giving back characters when everything that follows is whitespace — is
resolved the way a backtracking engine does: `.` (which excludes `\n`)
matches from the last position whose character is not a newline. -/
def matchActionAt (l : List Char) : Option (List Char × List Char) :=
  if actionMarker.isPrefixOf l then
    let r1 := (l.drop actionMarker.length).dropWhile pyIsSpace
    let nm := r1.takeWhile pyIsWord
    if nm.isEmpty then none
    else
      match r1.dropWhile pyIsWord with
      | c2 :: r3 =>
        if c2 = ':' then
          match r3.dropWhile pyIsSpace with
          | c :: rest => some (nm, (c :: rest).takeWhile (· ≠ '\n'))
          | [] =>
            match (r3.filter (· ≠ '\n')).getLast? with
            | some c => some (nm, [c])
            | none => none
        else none
      | [] => none
  else none

/-- `re.search`: try the pattern at each start position, left to right. -/
def searchAction : List Char → Option (List Char × List Char)
  | [] => none
  | c :: t =>
    match matchActionAt (c :: t) with
    | some r => some r
    | none => searchAction t

/-- Lines 171–174: `re.search(r"Action:\s*(\w+):\s*(.+)", text)` with
`group(1)` as the tool name and `group(2).strip()` as the tool input. -/
def parseAction (t : List Char) : Option (List Char × List Char) :=
  (searchAction t).map (fun p => (p.1, pyStrip p.2))

/-! ## Agent loop (`ReActAgent.run`) -/

inductive Role where
  | system
  | user
  | assistant
  deriving DecidableEq

/-- One entry of the `messages` list. -/
structure Turn where
  role : Role
  content : List Char

/-- The tool registry `self.tools`: name to function (the description field
plays no role in `run` and is omitted).  Python-dict lookup is modelled by
first-match association. -/
def Tools := List (List Char × (List Char → List Char))

def lookupTool (tools : Tools) (name : List Char) : Option (List Char → List Char) :=
  (List.find? (fun p => decide (p.1 = name)) tools).map (·.2)

def observationMsg (result : List Char) : List Char :=
  "Observation: ".toList ++ result

def unknownToolMsg (name : List Char) : List Char :=
  "Observation: Error - Unknown tool \x27".toList ++ name ++ "\x27".toList

/-- The turns one loop cycle appends to `messages` for the assistant text
`resp`: the assistant turn itself, then — unless the final-answer return is
taken — an observation turn when an action parses (tool result if the tool
is registered, the synthesized unknown-tool error otherwise). -/
def stepMessages (tools : Tools) (resp : List Char) : List Turn :=
  Turn.mk .assistant resp ::
    (if containsSub finalMarker resp then []
     else
       match parseAction resp with
       | some (nm, inp) =>
         match lookupTool tools nm with
         | some f => [Turn.mk .user (observationMsg (f inp))]
         | none => [Turn.mk .user (unknownToolMsg nm)]
       | none => [])

/-- Whether a cycle on assistant text `resp` actually invokes a registered
tool (the final-answer return preempts action handling). -/
def invokesTool (tools : Tools) (resp : List Char) : Bool :=
  if containsSub finalMarker resp then false
  else
    match parseAction resp with
    | some (nm, _) => (lookupTool tools nm).isSome
    | none => false

/-- `return "Max iterations reached without final answer"`. -/
def maxIterSentinel : List Char := "Max iterations reached without final answer".toList

structure RunOutcome where
  answer : List Char
  calls : Nat
  transcript : List Turn

/-- The `for i in range(self.max_iterations)` loop: each iteration issues one
completion call (`responses calls`), appends the assistant turn, returns the
stripped text after the final-answer marker when present, otherwise executes
a parsed action (appending an observation turn) and continues; when the
bound is exhausted the sentinel is returned. -/
def runLoop (responses : Nat → List Char) (tools : Tools) :
    List Turn → Nat → Nat → RunOutcome
  | msgs, calls, 0 => ⟨maxIterSentinel, calls, msgs⟩
  | msgs, calls, fuel + 1 =>
    let resp := responses calls
    let msgs2 := msgs ++ stepMessages tools resp
    if containsSub finalMarker resp then
      ⟨extractFinalAnswer resp, calls + 1, msgs2⟩
    else
      runLoop responses tools msgs2 (calls + 1) fuel

/-- `ReActAgent.run`: seed the transcript with the system prompt and the user
question, then run the loop with `max_iterations` as the bound.  The system
prompt's literal text does not influence the control flow and is threaded as
a value. -/
def agentRun (sysPrompt : List Char) (responses : Nat → List Char) (tools : Tools)
    (question : List Char) (maxIterations : Nat) : RunOutcome :=
  runLoop responses tools [Turn.mk .system sysPrompt, Turn.mk .user question] 0 maxIterations

/-! ## Calculator (`calculator` in `src/agents/main_agent.py` lines 201–219,
identically `src/react_agent.py` lines 133–151)

The tool is one call: `eval(expression, allowed_names)` with
`allowed_names = {'__builtins__': {}, 'abs': abs, 'round': round, 'min':
min, 'max': max, 'pow': pow}` inside `try/except Exception`, returning
`str(result)` on success and `f"Error: {str(e)}"` on a raised exception.
What `eval` does is CPython expression semantics, embedded here for the
fragment the properties exercise: integer and double-quoted string
literals, `+ - * %`, unary signs, names, calls and attribute access.
Constructs outside that fragment (floats, `/` on integers, `**`, single
quotes, comparisons, ...) evaluate to the explicit `unsupportedFragment`
marker, about which no fidelity claim is made and on which no theorem
depends.

The decisive semantic fact is CPython attribute access: passing
`'__builtins__': {}` restricts only *name* resolution; evaluating the
permitted name `abs` yields the real builtin, whose `__self__` attribute is
the `builtins` module object, whose attributes include `open`.  Only the
attributes along that documented path are modelled; every other attribute
lookup is mapped to `AttributeError` (CPython exposes many more, so the
model under-approximates what an attacker can reach). -/

inductive PyErr where
  | nameError (id : List Char)
  | typeError
  | zeroDivisionError
  | syntaxError
  | attributeError (fld : List Char)
  | unsupportedFragment

/-- Observable side effects performed during evaluation. -/
inductive Effect where
  | fileOpen (path mode : List Char)
  deriving DecidableEq

inductive PyVal where
  | int (n : Int)
  | str (s : List Char)
  | builtinFn (name : List Char)
  | builtinsModule
  | emptyDict
  | file (path mode : List Char)

inductive PyBinOp where
  | add
  | sub
  | mul
  | div
  | mod

inductive PyExpr where
  | intLit (n : Int)
  | strLit (s : List Char)
  | name (id : List Char)
  | binop (op : PyBinOp) (a b : PyExpr)
  | neg (a : PyExpr)
  | pos (a : PyExpr)
  | call (f : PyExpr) (args : List PyExpr)
  | attr (obj : PyExpr) (fld : List Char)

/-- Representative CPython rendering of `str(e)` for each exception (the
verified properties only inspect the `"Error"` prefix the tool prepends,
never the message text). -/
def errText : PyErr → List Char
  | .nameError id => "name \x27".toList ++ id ++ "\x27 is not defined".toList
  | .typeError => "unsupported operand or call".toList
  | .zeroDivisionError => "integer division or modulo by zero".toList
  | .syntaxError => "invalid syntax (<string>, line 1)".toList
  | .attributeError fld => "object has no attribute \x27".toList ++ fld ++ "\x27".toList
  | .unsupportedFragment => "construct outside the modelled fragment".toList

/-- Name resolution under `allowed_names`: the five whitelisted callables,
the `'__builtins__': {}` entry itself, and `NameError` for everything else
(builtins fallback is disabled by the empty `__builtins__`). -/
def lookupName (id : List Char) : Except PyErr PyVal :=
  if id = "abs".toList ∨ id = "round".toList ∨ id = "min".toList ∨
      id = "max".toList ∨ id = "pow".toList then
    .ok (.builtinFn id)
  else if id = "__builtins__".toList then
    .ok .emptyDict
  else
    .error (.nameError id)

/-- CPython `getattr` along the modelled path: a builtin function of the
`builtins` module has `__self__` equal to that module, and the module's
namespace contains `open`. -/
def getattrV (v : PyVal) (fld : List Char) : Except PyErr PyVal :=
  match v with
  | .builtinFn _ => if fld = "__self__".toList then .ok .builtinsModule else .error (.attributeError fld)
  | .builtinsModule => if fld = "open".toList then .ok (.builtinFn "open".toList) else .error (.attributeError fld)
  | _ => .error (.attributeError fld)

/-- Python `%` on integers: result has the sign of the divisor
(`a - b * (a // b)` with floor division). -/
def pyMod (a b : Int) : Except PyErr PyVal :=
  if b = 0 then .error .zeroDivisionError else .ok (.int (a - b * (Int.fdiv a b)))

def evalBinOp (op : PyBinOp) (a b : PyVal) : Except PyErr PyVal :=
  match op, a, b with
  | .add, .int x, .int y => .ok (.int (x + y))
  | .add, .str x, .str y => .ok (.str (x ++ y))
  | .sub, .int x, .int y => .ok (.int (x - y))
  | .mul, .int x, .int y => .ok (.int (x * y))
  | .div, .int _, .int _ => .error .unsupportedFragment
  | .mod, .int x, .int y => pyMod x y
  | _, _, _ => .error .typeError

/-- Fold an all-integers argument list, for `min`/`max`. -/
def intArgs : List PyVal → Option (List Int)
  | [] => some []
  | .int n :: t => (intArgs t).map (n :: ·)
  | _ => none

/-- The five whitelisted builtins plus `open` (reachable through
`abs.__self__`), on the argument shapes the model covers; every other shape
raises `TypeError`.  `open` is where evaluation performs real I/O. -/
def applyBuiltin (nm : List Char) (args : List PyVal) : Except PyErr (PyVal × List Effect) :=
  if nm = "abs".toList then
    match args with
    | [.int n] => .ok (.int |n|, [])
    | _ => .error .typeError
  else if nm = "round".toList then
    match args with
    | [.int n] => .ok (.int n, [])
    | _ => .error .typeError
  else if nm = "min".toList ∨ nm = "max".toList then
    match intArgs args with
    | some (x :: y :: t) =>
      .ok (.int ((y :: t).foldl (fun a b => if nm = "min".toList then min a b else max a b) x), [])
    | _ => .error .typeError
  else if nm = "pow".toList then
    match args with
    | [.int a, .int b] => if 0 ≤ b then .ok (.int (a ^ b.toNat), []) else .error .unsupportedFragment
    | _ => .error .typeError
  else if nm = "open".toList then
    match args with
    | [.str p] => .ok (.file p "r".toList, [.fileOpen p "r".toList])
    | [.str p, .str m] => .ok (.file p m, [.fileOpen p m])
    | _ => .error .typeError
  else
    .error .typeError

def applyCallable (v : PyVal) (args : List PyVal) : Except PyErr (PyVal × List Effect) :=
  match v with
  | .builtinFn nm => applyBuiltin nm args
  | _ => .error .typeError

/-- The expression evaluator: left-to-right evaluation, first raised
exception wins, side effects performed before a raise are retained.  Fuel
is structural recursion bookkeeping only; it is always instantiated above
the expression depth, so the fuel-exhaustion line is unreachable. -/
def evalE : Nat → PyExpr → List Effect × Except PyErr PyVal
  | 0, _ => ([], .error .unsupportedFragment)
  | fuel + 1, e =>
    match e with
    | .intLit n => ([], .ok (.int n))
    | .strLit s => ([], .ok (.str s))
    | .name id => ([], lookupName id)
    | .binop op a b =>
      let ra := evalE fuel a
      match ra.2 with
      | .error err => (ra.1, .error err)
      | .ok va =>
        let rb := evalE fuel b
        match rb.2 with
        | .error err => (ra.1 ++ rb.1, .error err)
        | .ok vb => (ra.1 ++ rb.1, evalBinOp op va vb)
    | .neg a =>
      let ra := evalE fuel a
      match ra.2 with
      | .error err => (ra.1, .error err)
      | .ok (.int n) => (ra.1, .ok (.int (-n)))
      | .ok _ => (ra.1, .error .typeError)
    | .pos a =>
      let ra := evalE fuel a
      match ra.2 with
      | .error err => (ra.1, .error err)
      | .ok (.int n) => (ra.1, .ok (.int n))
      | .ok _ => (ra.1, .error .typeError)
    | .attr o fld =>
      let ro := evalE fuel o
      match ro.2 with
      | .error err => (ro.1, .error err)
      | .ok v => (ro.1, getattrV v fld)
    | .call f args =>
      let rf := evalE fuel f
      match rf.2 with
      | .error err => (rf.1, .error err)
      | .ok vf =>
        let ra := args.foldl
          (fun (acc : List Effect × Except PyErr (List PyVal)) a =>
            match acc.2 with
            | .error err => (acc.1, Except.error err)
            | .ok vs =>
              let r := evalE fuel a
              match r.2 with
              | .error err => (acc.1 ++ r.1, Except.error err)
              | .ok v => (acc.1 ++ r.1, Except.ok (vs ++ [v])))
          ([], Except.ok [])
        match ra.2 with
        | .error err => (rf.1 ++ ra.1, .error err)
        | .ok vs =>
          match applyCallable vf vs with
          | .error err => (rf.1 ++ ra.1, .error err)
          | .ok (v, effs) => (rf.1 ++ ra.1 ++ effs, .ok v)

/-- CPython `str()` of the modelled values (representative renderings for
the non-primitive objects; no theorem inspects those texts). -/
def pyStrOf : PyVal → List Char
  | .int n => (toString n).toList
  | .str s => s
  | .builtinFn nm => "<built-in function ".toList ++ nm ++ ">".toList
  | .builtinsModule => "<module \x27builtins\x27 (built-in)>".toList
  | .emptyDict => "\x7b\x7d".toList
  | .file p m =>
    "<_io.TextIOWrapper name=\x27".toList ++ p ++ "\x27 mode=\x27".toList ++ m ++
      "\x27 encoding=\x27UTF-8\x27>".toList

inductive Tok where
  | intTok (n : Nat)
  | ident (s : List Char)
  | strTok (s : List Char)
  | plus
  | minus
  | star
  | dstar
  | slash
  | percent
  | lparen
  | rparen
  | comma
  | dot

def natOfDigits (ds : List Char) : Nat :=
  ds.foldl (fun acc c => acc * 10 + (c.toNat - 48)) 0

/-- Tokenizer for the modelled expression fragment (fuel is instantiated
above the input length; each step consumes at least one character). -/
def tokenizeF : Nat → List Char → Except PyErr (List Tok)
  | 0, _ => .error .unsupportedFragment
  | _ + 1, [] => .ok []
  | fuel + 1, c :: t =>
    if pyIsSpace c then tokenizeF fuel t
    else if c.isDigit then
      (tokenizeF fuel ((c :: t).dropWhile Char.isDigit)).map
        (Tok.intTok (natOfDigits ((c :: t).takeWhile Char.isDigit)) :: ·)
    else if pyIsWord c then
      (tokenizeF fuel ((c :: t).dropWhile pyIsWord)).map
        (Tok.ident ((c :: t).takeWhile pyIsWord) :: ·)
    else if c = '"' then
      match t.dropWhile (· ≠ '"') with
      | '"' :: rest => (tokenizeF fuel rest).map (Tok.strTok (t.takeWhile (· ≠ '"')) :: ·)
      | _ => .error .syntaxError
    else if c = '+' then (tokenizeF fuel t).map (Tok.plus :: ·)
    else if c = '-' then (tokenizeF fuel t).map (Tok.minus :: ·)
    else if c = '*' then
      match t with
      | '*' :: t2 => (tokenizeF fuel t2).map (Tok.dstar :: ·)
      | _ => (tokenizeF fuel t).map (Tok.star :: ·)
    else if c = '/' then (tokenizeF fuel t).map (Tok.slash :: ·)
    else if c = '%' then (tokenizeF fuel t).map (Tok.percent :: ·)
    else if c = '(' then (tokenizeF fuel t).map (Tok.lparen :: ·)
    else if c = ')' then (tokenizeF fuel t).map (Tok.rparen :: ·)
    else if c = ',' then (tokenizeF fuel t).map (Tok.comma :: ·)
    else if c = '.' then (tokenizeF fuel t).map (Tok.dot :: ·)
    else .error .unsupportedFragment

/-- Parser tasks: precedence levels, the left-recursive operator loops
carrying their accumulated left operand, and call-argument lists.  A single
task-directed function keeps the recursion structural on the fuel so that
parsing evaluates in the kernel. -/
inductive PTask where
  | addE
  | mulE
  | unaryE
  | postfixE
  | atomE
  | addLoop (left : PyExpr)
  | mulLoop (left : PyExpr)
  | postfixLoop (left : PyExpr)
  | argsE (acc : List PyExpr)

inductive PRes where
  | expr (e : PyExpr)
  | argList (es : List PyExpr)

def parseF : Nat → PTask → List Tok → Except PyErr (PRes × List Tok)
  | 0, _, _ => .error .unsupportedFragment
  | fuel + 1, task, toks =>
    match task with
    | .addE =>
      match parseF fuel .mulE toks with
      | .ok (.expr e, rest) => parseF fuel (.addLoop e) rest
      | .ok _ => .error .syntaxError
      | .error err => .error err
    | .addLoop left =>
      match toks with
      | .plus :: rest =>
        match parseF fuel .mulE rest with
        | .ok (.expr r, rest2) => parseF fuel (.addLoop (.binop .add left r)) rest2
        | .ok _ => .error .syntaxError
        | .error err => .error err
      | .minus :: rest =>
        match parseF fuel .mulE rest with
        | .ok (.expr r, rest2) => parseF fuel (.addLoop (.binop .sub left r)) rest2
        | .ok _ => .error .syntaxError
        | .error err => .error err
      | _ => .ok (.expr left, toks)
    | .mulE =>
      match parseF fuel .unaryE toks with
      | .ok (.expr e, rest) => parseF fuel (.mulLoop e) rest
      | .ok _ => .error .syntaxError
      | .error err => .error err
    | .mulLoop left =>
      match toks with
      | .star :: rest =>
        match parseF fuel .unaryE rest with
        | .ok (.expr r, rest2) => parseF fuel (.mulLoop (.binop .mul left r)) rest2
        | .ok _ => .error .syntaxError
        | .error err => .error err
      | .slash :: rest =>
        match parseF fuel .unaryE rest with
        | .ok (.expr r, rest2) => parseF fuel (.mulLoop (.binop .div left r)) rest2
        | .ok _ => .error .syntaxError
        | .error err => .error err
      | .percent :: rest =>
        match parseF fuel .unaryE rest with
        | .ok (.expr r, rest2) => parseF fuel (.mulLoop (.binop .mod left r)) rest2
        | .ok _ => .error .syntaxError
        | .error err => .error err
      | .dstar :: _ => .error .unsupportedFragment
      | _ => .ok (.expr left, toks)
    | .unaryE =>
      match toks with
      | .minus :: rest =>
        match parseF fuel .unaryE rest with
        | .ok (.expr e, rest2) => .ok (.expr (.neg e), rest2)
        | .ok _ => .error .syntaxError
        | .error err => .error err
      | .plus :: rest =>
        match parseF fuel .unaryE rest with
        | .ok (.expr e, rest2) => .ok (.expr (.pos e), rest2)
        | .ok _ => .error .syntaxError
        | .error err => .error err
      | _ => parseF fuel .postfixE toks
    | .postfixE =>
      match parseF fuel .atomE toks with
      | .ok (.expr e, rest) => parseF fuel (.postfixLoop e) rest
      | .ok _ => .error .syntaxError
      | .error err => .error err
    | .postfixLoop left =>
      match toks with
      | .dot :: .ident fld :: rest => parseF fuel (.postfixLoop (.attr left fld)) rest
      | .dot :: _ => .error .syntaxError
      | .lparen :: .rparen :: rest => parseF fuel (.postfixLoop (.call left [])) rest
      | .lparen :: rest =>
        match parseF fuel (.argsE []) rest with
        | .ok (.argList es, .rparen :: rest2) =>
          parseF fuel (.postfixLoop (.call left es)) rest2
        | .ok _ => .error .syntaxError
        | .error err => .error err
      | _ => .ok (.expr left, toks)
    | .argsE acc =>
      match parseF fuel .addE toks with
      | .ok (.expr e, .comma :: rest) => parseF fuel (.argsE (acc ++ [e])) rest
      | .ok (.expr e, rest) => .ok (.argList (acc ++ [e]), rest)
      | .ok _ => .error .syntaxError
      | .error err => .error err
    | .atomE =>
      match toks with
      | .intTok n :: rest => .ok (.expr (.intLit (Int.ofNat n)), rest)
      | .strTok s :: rest => .ok (.expr (.strLit s), rest)
      | .ident id :: rest => .ok (.expr (.name id), rest)
      | .lparen :: rest =>
        match parseF fuel .addE rest with
        | .ok (.expr e, .rparen :: rest2) => .ok (.expr e, rest2)
        | .ok _ => .error .syntaxError
        | .error err => .error err
      | _ => .error .syntaxError

/-- Parse a whole input as one Python expression: a statement such as
`import os` tokenizes but does not parse as an expression (or leaves
trailing tokens), which is `eval`'s `SyntaxError`. -/
def pyParseExpr (input : List Char) : Except PyErr PyExpr :=
  match tokenizeF (input.length + 1) input with
  | .error err => .error err
  | .ok [] => .error .syntaxError
  | .ok toks =>
    match parseF (8 * (toks.length + 1)) .addE toks with
    | .ok (.expr e, []) => .ok e
    | .ok _ => .error .syntaxError
    | .error err => .error err

/-- `calculator(expression)` together with the I/O effects evaluation
performs: parse, evaluate, render `str(result)`, and render any raised
exception as `f"Error: {str(e)}"` (the `except Exception` branch). -/
def calculatorE (input : List Char) : List Char × List Effect :=
  match pyParseExpr input with
  | .error err => ("Error: ".toList ++ errText err, [])
  | .ok ast =>
    let r := evalE (input.length + 1) ast
    match r.2 with
    | .ok v => (pyStrOf v, r.1)
    | .error err => ("Error: ".toList ++ errText err, r.1)

/-- The string `calculator` returns. -/
def calculator (input : List Char) : List Char :=
  (calculatorE input).1

/-! ## Search fallback chain (`src/tools/search_with_serp_api.py`) -/

/-- The optional `answer_box` object of a SerpAPI payload. -/
structure AnswerBox where
  answer : Option (List Char)
  snippet : Option (List Char)

structure KnowledgeGraph where
  description : Option (List Char)

structure OrganicResult where
  snippet : Option (List Char)

/-- The structured search payload, restricted to the fields the chain reads.
An absent `organic_results` key is modelled as the empty list (the code
guards with `'organic_results' in data and len(...) > 0`, which conflates
the two). -/
structure SerpData where
  answer_box : Option AnswerBox
  knowledge_graph : Option KnowledgeGraph
  organic_results : List OrganicResult

/-- A search provider: one HTTP request per call; a raised transport error
(`requests` exception, malformed JSON) is the `error` case. -/
def Provider := List Char → Except Unit SerpData

/-- Lines 44–52: collect up to 2 organic snippets whose stripped length
exceeds 20, bulleted; succeed only when at least one qualifies. -/
def organicPart (data : SerpData) : Option (List Char) :=
  if data.organic_results.length > 0 then
    let results := (data.organic_results.take 2).filterMap (fun r =>
      match r.snippet with
      | some s => if (pyStrip s).length > 20 then some ("• ".toList ++ s) else none
      | none => none)
    if results.length > 0 then some ("Search results:\n".toList ++ joinNL results) else none
  else none

/-- Lines 38–42: knowledge-graph description, else fall through to organic
results. -/
def kgPart (data : SerpData) : Option (List Char) :=
  match data.knowledge_graph with
  | some kg =>
    match kg.description with
    | some d => some ("Info: ".toList ++ d)
    | none => organicPart data
  | none => organicPart data

/-- Lines 30–52: answer box first (`answer`, else `snippet`), then knowledge
graph, then organic results; `none` means "no good results, try the next
variation". -/
def extractSerpResult (data : SerpData) : Option (List Char) :=
  match data.answer_box with
  | some ab =>
    match ab.answer with
    | some a => some ("Direct answer: ".toList ++ a)
    | none =>
      match ab.snippet with
      | some s => some ("Answer: ".toList ++ s)
      | none => kgPart data
  | none => kgPart data

/-- One loop body of lines 15–59: issue the request; a transport error is
caught (`except ... continue`) and yields nothing, otherwise the payload is
inspected. -/
def attemptVariant (provider : Provider) (q : List Char) : Option (List Char) :=
  match provider q with
  | .error _ => none
  | .ok data => extractSerpResult data

/-- The `for attempt, search_query in enumerate(query_variations[:max_retries])`
loop, also recording the queries actually sent (one request each). -/
def searchAttempts (provider : Provider) : List (List Char) → Option (List Char) × List (List Char)
  | [] => (none, [])
  | q :: rest =>
    match attemptVariant provider q with
    | some r => (some r, [q])
    | none =>
      let next := searchAttempts provider rest
      (next.1, q :: next.2)

/-- Lines 6–13: the five query variations, in order. -/
def queryVariations (query : List Char) : List (List Char) :=
  [query,
   query ++ " definition".toList,
   "what is ".toList ++ query,
   query ++ " explained".toList,
   pyReplace "power".toList "specifications".toList
     (pyReplace "power of".toList "thrust".toList query)]

/-- `_search_with_serpapi(query, api_key)` with the default `max_retries = 3`:
only the first three variations are ever attempted; exhaustion returns
Python `None` (modelled as `none`), per line 63 `return None`. -/
def searchWithSerpapi (provider : Provider) (query : List Char) (maxRetries : Nat) :
    Option (List Char) × List (List Char) :=
  searchAttempts provider ((queryVariations query).take maxRetries)

/-- `src/tools/web_search.py`: the degraded-mode result when no SerpAPI key
is configured. -/
def noKeyMsg : List Char := "No SerpAPI key found".toList

/-- `web_search(query)`: `os.getenv('SERPAPI_KEY')` yields `none` when the
variable is unset; Python's truthiness test `if serpapi_key:` also treats
the empty string as absent.  With a key, the result is whatever
`_search_with_serpapi` returns — possibly `None`. -/
def webSearch (key : Option (List Char)) (provider : Provider) (query : List Char) :
    Option (List Char) :=
  match key with
  | some k => if k.isEmpty then some noKeyMsg else (searchWithSerpapi provider query 3).1
  | none => some noKeyMsg

/-! ## Verification tool (`src/tools/verify_result.py`)

The key-term extraction `_extract_key_terms` (a regex substitution over the
description) only shapes the query texts; it is threaded as a parameter
`keyTerms`, so every property below holds for the actual extraction function
in particular. -/

/-- `_generate_verification_queries`: four queries, the second and fourth
varied by domain keywords found in the lowercased description. -/
def generateVerificationQueries (keyTerms : List Char → List Char)
    (description : List Char) : List (List Char) :=
  let low := pyLower description
  let kt := keyTerms description
  let q1 := "verify check validate ".toList ++ description
  let q2 :=
    if ["engine", "power", "horsepower", "thrust", "conversion"].any
        (fun t => containsSub t.toList low) then
      kt ++ " technical specifications datasheet".toList
    else
      kt ++ " technical specifications".toList
  let q3 := kt ++ " multiple sources comparison".toList
  let q4 :=
    if ["ge90", "boeing", "aircraft", "engine"].any (fun t => containsSub t.toList low) then
      kt ++ " official manufacturer specifications".toList
    else if ["calculation", "formula", "conversion"].any
        (fun t => containsSub t.toList low) then
      kt ++ " standard formula method".toList
    else
      kt ++ " authoritative source".toList
  ([q1, q2, q3, q4]).take 4

/-- One record of the `search_results` list: `(source_num, query, result)`.
`web_search` raises nothing in any modelled path, so the `except` branch of
the collection loop (which would store a `"Search failed: ..."` string) is
never taken. -/
def verificationSearchResults (key : Option (List Char)) (provider : Provider)
    (keyTerms : List Char → List Char) (description : List Char) :
    List (Nat × List Char × Option (List Char)) :=
  (generateVerificationQueries keyTerms description).enum.map
    (fun p => (p.1 + 1, p.2, webSearch key provider p.2))

/-- Fueled worker for `re.findall(r'[\d,]+\.?\d*', text)`: at each position a
match starts on a digit or comma and is taken greedily ([digit-or-comma run,
optional dot, digit run]); matches do not overlap. -/
def findNumbersF : Nat → List Char → List (List Char)
  | 0, _ => []
  | _ + 1, [] => []
  | fuel + 1, c :: t =>
    if c.isDigit || c = ',' then
      let d1 := (c :: t).takeWhile (fun x => x.isDigit || x = ',')
      let r1 := (c :: t).dropWhile (fun x => x.isDigit || x = ',')
      match r1 with
      | '.' :: r2 =>
        (d1 ++ '.' :: r2.takeWhile Char.isDigit) :: findNumbersF fuel (r2.dropWhile Char.isDigit)
      | _ => d1 :: findNumbersF fuel r1
    else findNumbersF fuel t

/-- `re.findall(r'[\d,]+\.?\d*', text)`. -/
def findNumbers (l : List Char) : List (List Char) :=
  findNumbersF l.length l

/-- First-occurrence deduplication, used to model the iteration over the
Python `set` of numeric tokens (CPython's set iteration order is
implementation-defined; no verified property depends on the order, only on
emptiness, which coincides). -/
def dedupFirst : List (List Char) → List (List Char)
  | [] => []
  | x :: t => if x ∈ dedupFirst t then dedupFirst t else x :: dedupFirst t

/-- `result['result'][:200] + "..."` truncation of the excerpt line. -/
def excerptOf (r : List Char) : List Char :=
  if r.length > 200 then r.take 200 ++ "...".toList else r

/-- The per-source block of `_analyze_verification_results` (lines 86–103).
A `none` search result is Python `None`, on which `"Search failed" not in
result['result']` raises `TypeError`; the `error` case models that raise.
Returns the block's report lines and the entry appended to `valid_results`,
if any. -/
def sourceBlock (num : Nat) (query : List Char) (res : Option (List Char)) :
    Except Unit (List (List Char) × Option (List Char)) :=
  match res with
  | none => .error ()
  | some r =>
    let head := "📊 Source ".toList ++ (toString num).toList ++ ": ".toList ++ query
    let dashes := (List.replicate 30 '-')
    if containsSub "Search failed".toList r then
      .ok ([head, dashes, "❌ ".toList ++ r, []], none)
    else
      let numbers := findNumbers r
      let numLines :=
        if numbers.length > 0 then
          ["Key numbers found: ".toList ++ List.intercalate ", ".toList (numbers.take 3)]
        else []
      .ok ([head, dashes] ++ numLines ++
            ["Excerpt: ".toList ++ excerptOf r, []], some r)

/-- Sequentially process the per-source blocks, accumulating report lines and
valid results; a raised `TypeError` aborts the whole report (lines built so
far are discarded with the exception). -/
def sourceBlocks : List (Nat × List Char × Option (List Char)) →
    Except Unit (List (List Char) × List (List Char))
  | [] => .ok ([], [])
  | (num, q, res) :: rest =>
    match sourceBlock num q res with
    | .error e => .error e
    | .ok (lines, valid) =>
      match sourceBlocks rest with
      | .error e => .error e
      | .ok (lines2, valids) => .ok (lines ++ lines2, (valid.toList) ++ valids)

/-- The consensus section (lines 105–130). -/
def analysisLines (validResults : List (List Char)) : List (List Char) :=
  ["🎯 VERIFICATION ANALYSIS:".toList, List.replicate 30 '-'] ++
  (if validResults.length ≥ 2 then
    let allNumbers := validResults.flatMap findNumbers
    (if allNumbers.length > 0 then
      ["Numbers found across sources: ".toList ++
        List.intercalate ", ".toList (dedupFirst allNumbers)] ++
      (if (dedupFirst allNumbers).length ≤ 3 then
        ["✅ Results show some consistency across sources".toList]
      else
        ["⚠️  Results show significant variation - this is normal for complex specifications".toList])
    else []) ++
    ["✅ Successfully verified with ".toList ++ (toString validResults.length).toList ++
      " sources".toList]
  else if validResults.length = 1 then
    ["⚠️  Only one source provided results - consider additional verification".toList]
  else
    ["❌ No sources provided valid results - manual verification strongly recommended".toList])

/-- `_analyze_verification_results`, as the list of report lines. -/
def analyzeVerificationLines (results : List (Nat × List Char × Option (List Char)))
    (description : List Char) : Except Unit (List (List Char)) :=
  match sourceBlocks results with
  | .error e => .error e
  | .ok (blockLines, validResults) =>
    .ok (["🔍 MULTI-SOURCE VERIFICATION REPORT".toList,
          List.replicate 50 '=',
          "Original Query: ".toList ++ description,
          []] ++ blockLines ++
         analysisLines validResults ++
         [[],
          "💡 RECOMMENDATION:".toList,
          "Compare your result with the findings above. If there\x27s significant discrepancy,".toList,
          "note the range of values found rather than seeking additional sources.".toList,
          "For most questions, this level of verification is sufficient to proceed with confidence.".toList])

/-- `verify_result(description)`: build the queries, search each, analyze;
the outer `except` renders any raised error as the failure string. -/
def verifyResult (key : Option (List Char)) (provider : Provider)
    (keyTerms : List Char → List Char) (description : List Char) : List Char :=
  match analyzeVerificationLines
      (verificationSearchResults key provider keyTerms description) description with
  | .ok lines => joinNL lines
  | .error _ =>
    ("Multi-source verification failed: argument of type \x27NoneType\x27 is not iterable." ++
     " Consider manually double-checking your result using alternative methods or sources.").toList

/-! ## Chat-history formatting (`src/utils/helpers.py`,
`format_chat_history_for_email`)

Messages carry string timestamps here; a `datetime`-typed timestamp is
converted to a string key up front by the code, and its rendering is
performed by the external `datetime` library, threaded below as the
`parseTs` parameter (`none` models an unparseable timestamp, rendered
`str(timestamp)` with no date header). -/

structure Msg where
  role : List Char
  content : List Char
  timestamp : List Char

/-- Python string comparison: lexicographic by code point. -/
def strLe : List Char → List Char → Bool
  | [], _ => true
  | _ :: _, [] => false
  | a :: as_, b :: bs => if a = b then strLe as_ bs else decide (a.val < b.val)

/-- `sorted(chat_history, key=lambda x: x.get("timestamp_str", x.get("timestamp", "")))`:
a stable ascending sort on the timestamp key. -/
def sortedHistory (h : List Msg) : List Msg :=
  List.insertionSort (fun a b => strLe a.timestamp b.timestamp = true) h

/-- Lines 413–424: drop every message whose `(role, content)` pair was
already seen. -/
def dedupByRoleContent : List Msg → List (List Char × List Char) → List Msg
  | [], _ => []
  | m :: t, seen =>
    if (m.role, m.content) ∈ seen then dedupByRoleContent t seen
    else m :: dedupByRoleContent t ((m.role, m.content) :: seen)

/-- The `unique_messages` list the export is formatted from. -/
def uniqueMessages (h : List Msg) : List Msg :=
  dedupByRoleContent (sortedHistory h) []

/-- One line of the formatted export: either a date header or a message
line. -/
inductive ExportEntry where
  | dateHeader (d : List Char)
  | messageLine (ts role content : List Char)

def isMessageLine : ExportEntry → Bool
  | .dateHeader _ => false
  | .messageLine _ _ _ => true

/-- Lines 432–469: format each unique message, inserting a date header
whenever the parsed date changes; unparseable timestamps are rendered raw. -/
def formatEntries (parseTs : List Char → Option (List Char × List Char)) :
    Option (List Char) → List Msg → List ExportEntry
  | _, [] => []
  | currentDate, m :: t =>
    match parseTs m.timestamp with
    | some (d, tm) =>
      (if currentDate ≠ some d then [ExportEntry.dateHeader d] else []) ++
      ExportEntry.messageLine tm m.role m.content :: formatEntries parseTs (some d) t
    | none =>
      ExportEntry.messageLine m.timestamp m.role m.content ::
        formatEntries parseTs currentDate t

def renderEntry : ExportEntry → List Char
  | .dateHeader d => "\n[Date: ".toList ++ d ++ "]\n".toList
  | .messageLine ts role content =>
    "[".toList ++ ts ++ "] ".toList ++ pyUpper role ++ ": ".toList ++ content ++ "\n".toList

/-- `format_chat_history_for_email`: header, then the rendered entries of
the sorted, deduplicated history. -/
def formatChatHistoryForEmail (parseTs : List Char → Option (List Char × List Char))
    (h : List Msg) : List Char :=
  "=== CHAT HISTORY ===\n".toList ++
    ((formatEntries parseTs none (uniqueMessages h)).map renderEntry).flatten

end MemoryAgent

namespace MemoryAgent

/-! ## Theorems: string primitives -/

theorem findSub_some_le {needle l : List Char} {i : Nat}
    (h : findSub needle l = some i) :
    needle.isPrefixOf (l.drop i) = true ∧ i + needle.length ≤ l.length := by
  induction l generalizing i with
  | nil =>
    unfold findSub at h
    by_cases hn : needle = ([] : List Char)
    · simp [hn] at h
      subst hn
      simp [← h, List.isPrefixOf]
    · simp [hn] at h
  | cons c t ih =>
    unfold findSub at h
    by_cases hp : needle.isPrefixOf (c :: t) = true
    · simp [hp] at h
      subst h
      refine ⟨hp, ?_⟩
      have := List.IsPrefix.length_le (List.isPrefixOf_iff_prefix.mp hp)
      simpa using this
    · simp [hp] at h
      obtain ⟨j, hj, rfl⟩ := h
      obtain ⟨h1, h2⟩ := ih hj
      refine ⟨by simpa using h1, ?_⟩
      simp only [List.length_cons]
      omega

theorem findSub_min {needle l : List Char} {i : Nat}
    (h : findSub needle l = some i) :
    ∀ m, needle.isPrefixOf (l.drop m) = true → i ≤ m := by
  induction l generalizing i with
  | nil =>
    intro m hm
    unfold findSub at h
    by_cases hn : needle = ([] : List Char)
    · simp [hn] at h; omega
    · simp [hn] at h
  | cons c t ih =>
    intro m hm
    unfold findSub at h
    by_cases hp : needle.isPrefixOf (c :: t) = true
    · simp [hp] at h; omega
    · simp [hp] at h
      obtain ⟨j, hj, rfl⟩ := h
      match m with
      | 0 => rw [List.drop_zero] at hm; exact absurd hm hp
      | m' + 1 =>
        have := ih hj m' (by simpa using hm)
        omega

theorem findSub_decomp {needle l : List Char} {i : Nat}
    (h : findSub needle l = some i) :
    l = l.take i ++ needle ++ l.drop (i + needle.length) := by
  obtain ⟨h1, _⟩ := findSub_some_le h
  obtain ⟨rest, hrest⟩ := List.isPrefixOf_iff_prefix.mp h1
  have hdrop : l.drop (i + needle.length) = rest := by
    have h0 : (needle ++ rest).drop needle.length = rest := by
      simp
    rw [← List.drop_drop, ← hrest, h0]
  calc l = l.take i ++ l.drop i := (List.take_append_drop i l).symm
    _ = l.take i ++ needle ++ l.drop (i + needle.length) := by
        rw [← hrest, hdrop, List.append_assoc]

theorem pySplitF_ne_nil (sep : List Char) (fuel : Nat) (l : List Char) :
    pySplitF sep fuel l ≠ [] := by
  match fuel with
  | 0 => simp [pySplitF]
  | fuel + 1 =>
    simp only [pySplitF]
    match findSub sep l with
    | none => simp
    | some i => simp

theorem pySplitF_of_not_contains {sep l : List Char} (fuel : Nat)
    (h : containsSub sep l = false) : pySplitF sep fuel l = [l] := by
  match fuel with
  | 0 => rfl
  | fuel + 1 =>
    simp only [pySplitF]
    match hf : findSub sep l with
    | none => rfl
    | some i => rw [containsSub, hf] at h; simp at h

theorem pySplitF_getLast_spec {sep : List Char} (hs : sep ≠ []) (fuel : Nat) :
    ∀ l : List Char, l.length ≤ fuel → containsSub sep l = true →
      containsSub sep ((pySplitF sep fuel l).getLastD []) = false ∧
      ∃ pre, l = pre ++ sep ++ (pySplitF sep fuel l).getLastD [] := by
  induction fuel with
  | zero =>
    intro l hlen hc
    have : l = [] := List.eq_nil_of_length_eq_zero (Nat.le_zero.mp hlen)
    subst this
    rw [containsSub, findSub] at hc
    have : sep ≠ [] := hs
    simp [this] at hc
  | succ fuel ih =>
    intro l hlen hc
    obtain ⟨i, hi⟩ : ∃ i, findSub sep l = some i := by
      rw [containsSub] at hc
      exact Option.isSome_iff_exists.mp hc
    have hsplit : pySplitF sep (fuel + 1) l =
        l.take i :: pySplitF sep fuel (l.drop (i + sep.length)) := by
      simp only [pySplitF, hi]
    have hdec := findSub_decomp hi
    have hsep1 : 1 ≤ sep.length := by
      cases sep with
      | nil => exact absurd rfl hs
      | cons a t => simp
    have hle : (l.drop (i + sep.length)).length ≤ fuel := by
      simp only [List.length_drop]
      have := (findSub_some_le hi).2
      omega
    have hlast : (pySplitF sep (fuel + 1) l).getLastD [] =
        (pySplitF sep fuel (l.drop (i + sep.length))).getLastD [] := by
      rw [hsplit]
      have hne := pySplitF_ne_nil sep fuel (l.drop (i + sep.length))
      match hm : pySplitF sep fuel (l.drop (i + sep.length)) with
      | [] => exact absurd hm hne
      | x :: xs => simp [List.getLastD_cons]
    by_cases hc2 : containsSub sep (l.drop (i + sep.length)) = true
    · obtain ⟨h1, pre2, h2⟩ := ih (l.drop (i + sep.length)) hle hc2
      set fin := (pySplitF sep fuel (l.drop (i + sep.length))).getLastD [] with hfin
      refine ⟨hlast ▸ h1, l.take i ++ sep ++ pre2, ?_⟩
      rw [hlast]
      conv_lhs => rw [hdec, h2]
      simp [List.append_assoc]
    · have hc2' : containsSub sep (l.drop (i + sep.length)) = false := by
        simpa using hc2
      have h3 : pySplitF sep fuel (l.drop (i + sep.length)) = [l.drop (i + sep.length)] :=
        pySplitF_of_not_contains fuel hc2'
      rw [hlast, h3]
      exact ⟨by simpa using hc2', l.take i, by simpa using hdec⟩

theorem pySplit_getLast_spec {sep : List Char} (hs : sep ≠ []) (l : List Char)
    (hc : containsSub sep l = true) :
    containsSub sep ((pySplit sep l).getLastD []) = false ∧
    ∃ pre, l = pre ++ sep ++ (pySplit sep l).getLastD [] := by
  have hlen : ¬ sep.length = 0 := by
    cases sep with
    | nil => exact absurd rfl hs
    | cons a t => simp
  rw [pySplit, if_neg hlen]
  exact pySplitF_getLast_spec hs l.length l (Nat.le_refl _) hc

theorem dropWhile_append_of_all {p : Char → Bool} {a : List Char} (b : List Char)
    (h : ∀ c ∈ a, p c = true) :
    (a ++ b).dropWhile p = b.dropWhile p := by
  induction a with
  | nil => simp
  | cons c t ih =>
    have hc : p c = true := h c (by simp)
    simpa [List.dropWhile, hc] using ih (fun x hx => h x (by simp [hx]))

theorem dropWhile_cons_of_neg {p : Char → Bool} {c : Char} (t : List Char)
    (h : p c = false) : (c :: t).dropWhile p = c :: t := by
  simp [List.dropWhile, h]

theorem takeWhile_append_of_all {p : Char → Bool} {a : List Char} (b : List Char)
    (h : ∀ c ∈ a, p c = true) :
    (a ++ b).takeWhile p = a ++ b.takeWhile p := by
  induction a with
  | nil => simp
  | cons c t ih =>
    have hc : p c = true := h c (by simp)
    simpa [List.takeWhile, hc] using ih (fun x hx => h x (by simp [hx]))

theorem takeWhile_cons_of_neg {p : Char → Bool} {c : Char} (t : List Char)
    (h : p c = false) : (c :: t).takeWhile p = [] := by
  simp [List.takeWhile, h]

theorem takeWhile_eq_self_of_all {p : Char → Bool} {a : List Char}
    (h : ∀ c ∈ a, p c = true) : a.takeWhile p = a :=
  List.takeWhile_eq_self_iff.mpr h

theorem dropWhile_head_neg {p : Char → Bool} {l : List Char} {c : Char} {t : List Char}
    (h : l.dropWhile p = c :: t) : p c = false := by
  induction l with
  | nil => simp [List.dropWhile] at h
  | cons x xs ih =>
    by_cases hx : p x = true
    · rw [List.dropWhile_cons_of_pos hx] at h
      exact ih h
    · have hx' : p x = false := by simpa using hx
      rw [dropWhile_cons_of_neg _ hx'] at h
      cases h
      exact hx'

theorem dropWhile_idem {p : Char → Bool} (l : List Char) :
    (l.dropWhile p).dropWhile p = l.dropWhile p := by
  match hd : l.dropWhile p with
  | [] => rfl
  | c :: t => exact dropWhile_cons_of_neg t (dropWhile_head_neg hd)

theorem pyStrip_dropWhile (l : List Char) :
    pyStrip (l.dropWhile pyIsSpace) = pyStrip l := by
  unfold pyStrip
  rw [dropWhile_idem]

theorem pyIsSpace_elim {c : Char} (h : pyIsSpace c = true) :
    c = ' ' ∨ c = '\t' ∨ c = '\n' ∨ c = '\r' ∨ c = '\x0b' ∨ c = '\x0c' := by
  simpa [pyIsSpace, Bool.or_eq_true, or_assoc] using h

theorem pyIsWord_not_space {c : Char} (h : pyIsWord c = true) : pyIsSpace c = false := by
  by_contra hs
  have hs' : pyIsSpace c = true := by simpa using hs
  rcases pyIsSpace_elim hs' with rfl | rfl | rfl | rfl | rfl | rfl <;>
    exact absurd h (by decide)

/-! ## Claim C1 -/

/-- C1: the claim is right about the intent and wrong about the code.  The
positive parts hold — `calculator("2 + 3")` returns `"5"`, a statement such
as `"import os"` is rejected with an `"Error: ..."` string and performs no
I/O — but the sandbox is escapable: `allowed_names` restricts only name
lookup, and the expression `abs.__self__.open("/tmp/pwned", "w")` reaches
the `builtins` module through the permitted name `abs`, opens a file for
writing (real I/O during `eval`) and returns the file object's rendering as
a non-error result. -/
theorem claim_C1_calculator_sandbox :
    calculator "2 + 3".toList = "5".toList ∧
    "Error".toList.isPrefixOf (calculator "import os".toList) = true ∧
    (calculatorE "import os".toList).2 = [] ∧
    "Error".toList.isPrefixOf
      (calculator "abs.__self__.open(\"/tmp/pwned\", \"w\")".toList) = false ∧
    (calculatorE "abs.__self__.open(\"/tmp/pwned\", \"w\")".toList).2 =
      [Effect.fileOpen "/tmp/pwned".toList "w".toList] := by
  refine ⟨by decide, by decide, by decide, by decide, by decide⟩

/-! ## Claim C2 -/

/-- C2, counterexample: on an assistant text with two final-answer markers
the code (`split("Final Answer:")[-1].strip()`) keeps only what follows the
LAST occurrence, not the first as the claim states. -/
theorem claim_C2_counterexample :
    specAfterFirstMarker "Final Answer: A Final Answer: B".toList =
      some "A Final Answer: B".toList ∧
    extractFinalAnswer "Final Answer: A Final Answer: B".toList = "B".toList ∧
    ("A Final Answer: B".toList : List Char) ≠ "B".toList := by
  refine ⟨by decide, by decide, by decide⟩

/-- C2, amended: for every assistant text containing the final-answer
marker, the loop returns on that turn (the final-answer check precedes
action handling, so any action-shaped line is ignored), and the result is
everything after the LAST occurrence of the marker, trimmed of leading and
trailing whitespace. -/
theorem claim_C2_amended (t : List Char) (hc : containsSub finalMarker t = true)
    (responses : Nat → List Char) (tools : Tools) (msgs : List Turn)
    (calls fuel : Nat) (hr : responses calls = t) :
    (runLoop responses tools msgs calls (fuel + 1)).answer = extractFinalAnswer t ∧
    (runLoop responses tools msgs calls (fuel + 1)).calls = calls + 1 ∧
    ∃ pre rest, t = pre ++ finalMarker ++ rest ∧
      containsSub finalMarker rest = false ∧
      extractFinalAnswer t = pyStrip rest := by
  have hmarker : finalMarker ≠ [] := by decide
  obtain ⟨hnot, pre, hdec⟩ := pySplit_getLast_spec hmarker t hc
  refine ⟨?_, ?_, pre, (pySplit finalMarker t).getLastD [], hdec, hnot, rfl⟩
  · simp only [runLoop, hr, hc, if_true]
  · simp only [runLoop, hr, hc, if_true]

/-! ## Claim C3 -/

theorem matchActionAt_none_of_not_marker {l : List Char}
    (h : actionMarker.isPrefixOf l = false) : matchActionAt l = none := by
  simp [matchActionAt, h]

theorem searchAction_of_found : ∀ (n : Nat) (l : List Char) (r : List Char × List Char),
    (∀ i, i < n → matchActionAt (l.drop i) = none) →
    matchActionAt (l.drop n) = some r →
    searchAction l = some r := by
  intro n
  induction n with
  | zero =>
    intro l r _ hsome
    rw [List.drop_zero] at hsome
    match l with
    | [] => rw [show matchActionAt [] = none from by decide] at hsome; cases hsome
    | c :: t => simp [searchAction, hsome]
  | succ n ih =>
    intro l r hnone hsome
    match l with
    | [] =>
      rw [List.drop_nil, show matchActionAt [] = none from by decide] at hsome
      cases hsome
    | c :: t =>
      have h0 : matchActionAt (c :: t) = none := by
        simpa using hnone 0 (Nat.succ_pos n)
      rw [List.drop_succ_cons] at hsome
      simp only [searchAction, h0]
      exact ih t r (fun i hi => by simpa [List.drop_succ_cons] using hnone (i + 1) (by omega))
        hsome

/-- C3, counterexample: a space *before* the second colon defeats the
pattern (`(\w+)` cannot absorb it and `:` must follow immediately), so the
text degrades to "no action found" — while the claim, which tolerates
"extra spaces around the colons", requires it to parse as
`("calc", "2 + 2")`. -/
theorem claim_C3_counterexample :
    parseAction "Action: calc : 2 + 2".toList = none := by decide

/-- C3, amended: for every text containing a well-formed action line whose
interior spaces follow the colons (no space after the second colon, or
arbitrarily many spaces and tabs after either colon — but none before a
colon), with a tool name of word characters and a single-line input, the
parser extracts that name and the whitespace-trimmed input; the match is
taken at the first occurrence of the action marker.  (The parser is a total
function: malformed input yields `none`, never an exception.) -/
theorem claim_C3_amended
    (pre s1 nm s3 input suffix : List Char)
    (hs1 : ∀ c ∈ s1, pyIsSpace c = true)
    (hnmne : nm ≠ [])
    (hnm : ∀ c ∈ nm, pyIsWord c = true)
    (hs3 : ∀ c ∈ s3, pyIsSpace c = true)
    (hinput : ∃ c ∈ input, pyIsSpace c = false)
    (hnl : '\n' ∉ input)
    (hsuffix : suffix = [] ∨ ∃ s, suffix = '\n' :: s)
    (hfirst : findSub actionMarker
        (pre ++ (actionMarker ++ (s1 ++ (nm ++ (':' :: (s3 ++ (input ++ suffix))))))) =
        some pre.length) :
    parseAction (pre ++ (actionMarker ++ (s1 ++ (nm ++ (':' :: (s3 ++ (input ++ suffix))))))) =
      some (nm, pyStrip input) := by
  obtain ⟨n0, nt, rfl⟩ : ∃ n0 nt, nm = n0 :: nt := by
    match nm with
    | [] => exact absurd rfl hnmne
    | n0 :: nt => exact ⟨n0, nt, rfl⟩
  have hn0 : pyIsSpace n0 = false := pyIsWord_not_space (hnm n0 (by simp))
  -- the tail of the text from the marker on
  set tailPart := actionMarker ++ (s1 ++ ((n0 :: nt) ++ (':' :: (s3 ++ (input ++ suffix)))))
    with htail
  -- the suffix of the input left after the regex's second `\s*`
  have hinputNe : input.dropWhile pyIsSpace ≠ [] := by
    intro hnil
    obtain ⟨c, hcmem, hcfalse⟩ := hinput
    have := List.dropWhile_eq_nil_iff.mp hnil c hcmem
    rw [this] at hcfalse
    cases hcfalse
  obtain ⟨c0, t0, hct⟩ : ∃ c0 t0, input.dropWhile pyIsSpace = c0 :: t0 := by
    match hm : input.dropWhile pyIsSpace with
    | [] => exact absurd hm hinputNe
    | c0 :: t0 => exact ⟨c0, t0, rfl⟩
  have hmatch : matchActionAt tailPart = some (n0 :: nt, input.dropWhile pyIsSpace) := by
    have hpref : actionMarker.isPrefixOf tailPart = true :=
      List.isPrefixOf_iff_prefix.mpr (List.prefix_append _ _)
    have hdropm : tailPart.drop actionMarker.length =
        s1 ++ ((n0 :: nt) ++ (':' :: (s3 ++ (input ++ suffix)))) := List.drop_left _ _
    have hr1 : (s1 ++ ((n0 :: nt) ++ (':' :: (s3 ++ (input ++ suffix))))).dropWhile pyIsSpace =
        (n0 :: nt) ++ (':' :: (s3 ++ (input ++ suffix))) := by
      rw [dropWhile_append_of_all _ hs1, List.cons_append, dropWhile_cons_of_neg _ hn0]
    have htake : ((n0 :: nt) ++ (':' :: (s3 ++ (input ++ suffix)))).takeWhile pyIsWord =
        n0 :: nt := by
      rw [takeWhile_append_of_all _ hnm, takeWhile_cons_of_neg _ (by decide)]
      simp
    have hdropw : ((n0 :: nt) ++ (':' :: (s3 ++ (input ++ suffix)))).dropWhile pyIsWord =
        ':' :: (s3 ++ (input ++ suffix)) := by
      rw [dropWhile_append_of_all _ hnm, dropWhile_cons_of_neg _ (by decide)]
    have hEmptyFalse : (input.dropWhile pyIsSpace).isEmpty = false := by
      rw [hct]; rfl
    have hr3 : (s3 ++ (input ++ suffix)).dropWhile pyIsSpace =
        (input.dropWhile pyIsSpace) ++ suffix := by
      rw [dropWhile_append_of_all _ hs3, List.dropWhile_append, hEmptyFalse]
      simp
    have hall : ∀ c ∈ input.dropWhile pyIsSpace, (decide (c ≠ '\n')) = true := by
      intro c hc
      have hmem : c ∈ input := (List.dropWhile_sublist pyIsSpace).mem hc
      simp only [ne_eq, decide_eq_true_eq]
      intro h
      subst h
      exact hnl hmem
    have hgroup2 : ((input.dropWhile pyIsSpace) ++ suffix).takeWhile (fun c => c ≠ '\n') =
        input.dropWhile pyIsSpace := by
      rw [takeWhile_append_of_all _ hall]
      rcases hsuffix with rfl | ⟨s, rfl⟩
      · simp
      · rw [takeWhile_cons_of_neg _ (by decide)]
        simp
    rw [matchActionAt, if_pos hpref, hdropm, hr1]
    simp only [htake, hdropw]
    rw [if_neg (by simp)]
    simp only [if_true]
    rw [hr3, hct, List.cons_append]
    show some (n0 :: nt, (c0 :: (t0 ++ suffix)).takeWhile (fun x => decide (x ≠ '\n'))) =
      some (n0 :: nt, c0 :: t0)
    rw [← List.cons_append, ← hct, hgroup2, hct]
  have hsearch : searchAction
      (pre ++ tailPart) = some (n0 :: nt, input.dropWhile pyIsSpace) := by
    apply searchAction_of_found pre.length
    · intro i hi
      cases hp : actionMarker.isPrefixOf ((pre ++ tailPart).drop i) with
      | false => exact matchActionAt_none_of_not_marker hp
      | true =>
        have := findSub_min hfirst i hp
        omega
    · rw [List.drop_left]
      exact hmatch
  rw [parseAction, hsearch]
  simp [pyStrip_dropWhile]

/-- C3, witness for the amended theorem: a thought line followed by an
action line with a space after the first colon and none after the second. -/
theorem claim_C3_amended_witness :
    parseAction ("Thought: search.\n".toList ++ (actionMarker ++ (" ".toList ++
        ("web_search".toList ++ (':' :: ("".toList ++
          ("capital of France".toList ++ "".toList))))))) =
      some ("web_search".toList, pyStrip "capital of France".toList) :=
  claim_C3_amended "Thought: search.\n".toList " ".toList "web_search".toList
    "".toList "capital of France".toList "".toList
    (by decide) (by decide) (by decide) (by decide) (by decide) (by decide)
    (Or.inl rfl) (by decide)

/-! ## Claim C4 -/

theorem runLoop_calls_le (responses : Nat → List Char) (tools : Tools) :
    ∀ (fuel : Nat) (msgs : List Turn) (calls : Nat),
      (runLoop responses tools msgs calls fuel).calls ≤ calls + fuel := by
  intro fuel
  induction fuel with
  | zero => intro msgs calls; simp [runLoop]
  | succ fuel ih =>
    intro msgs calls
    simp only [runLoop]
    by_cases hf : containsSub finalMarker (responses calls) = true
    · simp only [hf, if_true]
      omega
    · have hf' : containsSub finalMarker (responses calls) = false := by simpa using hf
      simp only [hf', Bool.false_eq_true, if_false]
      have := ih (msgs ++ stepMessages tools (responses calls)) (calls + 1)
      omega

theorem runLoop_exhausted (responses : Nat → List Char) (tools : Tools) :
    ∀ (fuel : Nat) (msgs : List Turn) (calls : Nat),
      (∀ j, calls ≤ j → j < calls + fuel → containsSub finalMarker (responses j) = false) →
      (runLoop responses tools msgs calls fuel).answer = maxIterSentinel ∧
      (runLoop responses tools msgs calls fuel).calls = calls + fuel := by
  intro fuel
  induction fuel with
  | zero => intro msgs calls _; simp [runLoop]
  | succ fuel ih =>
    intro msgs calls hno
    have h0 : containsSub finalMarker (responses calls) = false :=
      hno calls (Nat.le_refl _) (by omega)
    simp only [runLoop, h0, Bool.false_eq_true, if_false]
    have := ih (msgs ++ stepMessages tools (responses calls)) (calls + 1)
      (fun j h1 h2 => hno j (by omega) (by omega))
    exact ⟨this.1, by omega⟩

/-- C4: a `run` issues at most `max_iterations` completion calls, and when
none of the first `max_iterations` responses contains the final-answer
marker it issues exactly that many and returns the exhaustion sentinel as a
normal result. -/
theorem claim_C4_iteration_bound (sys q : List Char) (responses : Nat → List Char)
    (tools : Tools) (maxIterations : Nat) :
    (agentRun sys responses tools q maxIterations).calls ≤ maxIterations ∧
    ((∀ j, j < maxIterations → containsSub finalMarker (responses j) = false) →
      (agentRun sys responses tools q maxIterations).answer = maxIterSentinel ∧
      (agentRun sys responses tools q maxIterations).calls = maxIterations) := by
  constructor
  · simpa using runLoop_calls_le responses tools maxIterations _ 0
  · intro hno
    simpa using runLoop_exhausted responses tools maxIterations _ 0
      (fun j _ h2 => hno j (by omega))

/-- C4, witness: ten thought-only responses with the default bound 10. -/
theorem claim_C4_iteration_bound_witness :
    (agentRun "sys".toList (fun _ => "Thought: still thinking".toList) [] "q".toList 10).calls
        ≤ 10 ∧
    (agentRun "sys".toList (fun _ => "Thought: still thinking".toList) [] "q".toList 10).answer
        = maxIterSentinel ∧
    (agentRun "sys".toList (fun _ => "Thought: still thinking".toList) [] "q".toList 10).calls
        = 10 :=
  ⟨(claim_C4_iteration_bound "sys".toList "q".toList
      (fun _ => "Thought: still thinking".toList) [] 10).1,
   (claim_C4_iteration_bound "sys".toList "q".toList
      (fun _ => "Thought: still thinking".toList) [] 10).2 (fun j _ => by decide)⟩

/-! ## Claim C5 -/

theorem searchAttempts_trace (provider : Provider) :
    ∀ vs : List (List Char),
      (searchAttempts provider vs).2 <+: vs := by
  intro vs
  induction vs with
  | nil => simp [searchAttempts]
  | cons q rest ih =>
    simp only [searchAttempts]
    cases hav : attemptVariant provider q with
    | some r =>
      show ([q] : List (List Char)) <+: q :: rest
      exact ⟨rest, rfl⟩
    | none =>
      obtain ⟨t, ht⟩ := ih
      exact ⟨t, by rw [List.cons_append, ht]⟩

/-- C5, counterexample: the code builds five query variations, not four,
and with the default `max_retries = 3` (the only value ever passed) it
attempts only the first three — `"<query> explained"` and the
term-substituted variant are never requested even when every attempted
variant fails. -/
theorem claim_C5_counterexample :
    (queryVariations "engine power".toList).length = 5 ∧
    (searchWithSerpapi (fun _ => .error ()) "engine power".toList 3).2 =
      ["engine power".toList, "engine power definition".toList,
       "what is engine power".toList] ∧
    "engine power explained".toList ∉
      (searchWithSerpapi (fun _ => .error ()) "engine power".toList 3).2 := by
  refine ⟨by decide, by decide, by decide⟩

/-- C5, amended: the chain generates five variants in the fixed order (the
original, `"<query> definition"`, `"what is <query>"`, `"<query> explained"`,
the term-substituted one) but attempts only the first `max_retries = 3`,
strictly in order, stopping at the first success; in particular, when the
provider fails for variants 1–2 and succeeds on variant 3, exactly 3
requests are issued and the third variant's extraction is returned. -/
theorem claim_C5_amended (provider : Provider) (query : List Char) :
    (searchWithSerpapi provider query 3).2 <+: (queryVariations query).take 3 ∧
    (searchWithSerpapi provider query 3).2.length ≤ 3 ∧
    (attemptVariant provider query = none →
     attemptVariant provider (query ++ " definition".toList) = none →
     (attemptVariant provider ("what is ".toList ++ query)).isSome = true →
      (searchWithSerpapi provider query 3).2 = (queryVariations query).take 3 ∧
      (searchWithSerpapi provider query 3).1 =
        attemptVariant provider ("what is ".toList ++ query)) := by
  have htr := searchAttempts_trace provider ((queryVariations query).take 3)
  refine ⟨htr, ?_, ?_⟩
  · show (searchAttempts provider ((queryVariations query).take 3)).2.length ≤ 3
    have h1 := htr.length_le
    have h2 : ((queryVariations query).take 3).length ≤ 3 := by
      simp [List.length_take]
    omega
  · intro h1 h2 h3
    obtain ⟨r, hr⟩ := Option.isSome_iff_exists.mp h3
    constructor
    · show (searchAttempts provider ((queryVariations query).take 3)).2 = _
      simp only [queryVariations, List.take, searchAttempts, h1, h2, hr]
    · show (searchAttempts provider ((queryVariations query).take 3)).1 =
        attemptVariant provider ("what is ".toList ++ query)
      simp only [queryVariations, List.take, searchAttempts, h1, h2, hr]

/-- C5, witness for the amended theorem: a provider that errors on the
first two variants and answers the third. -/
theorem claim_C5_amended_witness :
    (searchWithSerpapi
        (fun q => if q = "what is thrust".toList then
          .ok ⟨some ⟨some "engine force".toList, none⟩, none, []⟩ else .error ())
        "thrust".toList 3).2 = (queryVariations "thrust".toList).take 3 ∧
    (searchWithSerpapi
        (fun q => if q = "what is thrust".toList then
          .ok ⟨some ⟨some "engine force".toList, none⟩, none, []⟩ else .error ())
        "thrust".toList 3).1 =
      attemptVariant
        (fun q => if q = "what is thrust".toList then
          .ok ⟨some ⟨some "engine force".toList, none⟩, none, []⟩ else .error ())
        ("what is ".toList ++ "thrust".toList) :=
  (claim_C5_amended
      (fun q => if q = "what is thrust".toList then
        .ok ⟨some ⟨some "engine force".toList, none⟩, none, []⟩ else .error ())
      "thrust".toList).2.2 (by decide) (by decide) (by decide)

/-! ## Claim C6 -/

/-- C6, counterexample: an organic snippet of exactly 20 characters does
not qualify — the code requires `len(result['snippet'].strip()) > 20`, so a
variant whose only content is a 20-character snippet yields nothing, while
the claim says a snippet of exactly 20 characters qualifies. -/
theorem claim_C6_counterexample :
    "aaaaaaaaaaaaaaaaaaaa".toList.length = 20 ∧
    pyStrip "aaaaaaaaaaaaaaaaaaaa".toList = "aaaaaaaaaaaaaaaaaaaa".toList ∧
    extractSerpResult ⟨none, none, [⟨some "aaaaaaaaaaaaaaaaaaaa".toList⟩]⟩ = none := by
  refine ⟨by decide, by decide, by decide⟩

/-- C6, amended: the response is inspected in priority order — answer-box
`answer`, answer-box `snippet`, knowledge-graph `description`, then up to 2
organic snippets — and an organic snippet qualifies exactly when its
stripped length is strictly greater than 20 characters. -/
theorem claim_C6_amended :
    (∀ (a : List Char) (sb : Option (List Char)) (kg : Option KnowledgeGraph)
        (org : List OrganicResult),
      extractSerpResult ⟨some ⟨some a, sb⟩, kg, org⟩ =
        some ("Direct answer: ".toList ++ a)) ∧
    (∀ (s : List Char) (kg : Option KnowledgeGraph) (org : List OrganicResult),
      extractSerpResult ⟨some ⟨none, some s⟩, kg, org⟩ =
        some ("Answer: ".toList ++ s)) ∧
    (∀ (d : List Char) (org : List OrganicResult),
      extractSerpResult ⟨none, some ⟨some d⟩, org⟩ = some ("Info: ".toList ++ d) ∧
      extractSerpResult ⟨some ⟨none, none⟩, some ⟨some d⟩, org⟩ =
        some ("Info: ".toList ++ d)) ∧
    (∀ s : List Char,
      extractSerpResult ⟨none, none, [⟨some s⟩]⟩ =
        if (pyStrip s).length > 20 then some ("Search results:\n• ".toList ++ s)
        else none) := by
  refine ⟨fun a sb kg org => rfl, fun s kg org => rfl, fun d org => ⟨rfl, rfl⟩, fun s => ?_⟩
  simp only [extractSerpResult, kgPart, organicPart, List.take, List.filterMap]
  by_cases h : (pyStrip s).length > 20
  · have hj : joinNL ['•' :: ' ' :: s] = '•' :: ' ' :: s := by
      simp [joinNL, List.intercalate]
    simp [h, hj]
  · simp [h]

/-! ## Claim C7 -/

/-- C7: the strict-service variant violates the `search(query) -> text`
contract on exhaustion.  With a key configured and a provider that raises a
transport error on every attempt, the chain survives all three errors and
issues exactly 3 requests (transport errors are indeed never fatal), but
`_search_with_serpapi` then executes `return None` (line 63) — despite its
`-> str` annotation and its own log line "returning empty string" — so
`web_search` hands the caller Python `None`, not a "no results" sentinel
string. -/
theorem claim_C7_none_on_exhaustion :
    webSearch (some "key".toList) (fun _ => .error ()) "engine power".toList = none ∧
    (searchWithSerpapi (fun _ => .error ()) "engine power".toList 3).2.length = 3 := by
  refine ⟨by decide, by decide⟩

/-! ## Claim C8 -/

/-- C8, counterexample: a cycle whose action names an unregistered tool
invokes no tool, yet the transcript still grows by two turns (the assistant
turn plus the synthesized unknown-tool observation) — the claim allows two
turns only for cycles that invoke a tool. -/
theorem claim_C8_counterexample :
    (stepMessages [] "Action: foo: bar".toList).length = 2 ∧
    invokesTool [] "Action: foo: bar".toList = false := by
  refine ⟨by decide, by decide⟩

/-- C8, amended: a cycle grows the transcript by exactly two turns when the
assistant message parses to an action (whether the tool exists — invoking
it — or not — synthesizing the unknown-tool error observation), and by
exactly one turn otherwise (final answer or no action); and the loop only
ever appends: the incoming transcript is a prefix of the final one. -/
theorem claim_C8_amended (tools : Tools) (resp : List Char)
    (responses : Nat → List Char) (msgs : List Turn) (calls fuel : Nat) :
    (stepMessages tools resp).length =
      (if containsSub finalMarker resp = false ∧ (parseAction resp).isSome = true
       then 2 else 1) ∧
    msgs <+: (runLoop responses tools msgs calls fuel).transcript := by
  constructor
  · simp only [stepMessages]
    by_cases hf : containsSub finalMarker resp = true
    · simp [hf]
    · have hf' : containsSub finalMarker resp = false := by simpa using hf
      simp only [hf', if_false, Bool.false_eq_true]
      match hp : parseAction resp with
      | some (nm, inp) =>
        simp only [hp, Option.isSome_some, and_true]
        match lookupTool tools nm with
        | some f => simp
        | none => simp
      | none => simp [hp]
  · induction fuel generalizing msgs calls with
    | zero => simp [runLoop]
    | succ fuel ih =>
      simp only [runLoop]
      by_cases hf : containsSub finalMarker (responses calls) = true
      · simp only [hf, if_true]
        exact ⟨stepMessages tools (responses calls), rfl⟩
      · simp only [hf, if_false, Bool.false_eq_true]
        exact (List.prefix_append msgs (stepMessages tools (responses calls))).trans
          (ih (msgs ++ stepMessages tools (responses calls)) (calls + 1))

/-! ## Claim C9 -/

theorem dedup_countP (r c : List Char) :
    ∀ (l : List Msg) (seen : List (List Char × List Char)),
      (dedupByRoleContent l seen).countP (fun m => decide ((m.role, m.content) = (r, c))) =
        if (r, c) ∈ seen then 0
        else if l.any (fun m => decide ((m.role, m.content) = (r, c))) then 1 else 0 := by
  intro l
  induction l with
  | nil =>
    intro seen
    simp [dedupByRoleContent]
  | cons m t ih =>
    intro seen
    by_cases hm : (m.role, m.content) ∈ seen
    · rw [dedupByRoleContent, if_pos hm, ih]
      by_cases hq : (m.role, m.content) = (r, c)
      · rw [if_pos (hq ▸ hm), if_pos (hq ▸ hm)]
      · have hqm : (decide ((m.role, m.content) = (r, c))) = false := by
          simpa using hq
        simp only [List.any_cons, hqm, Bool.false_or]
    · rw [dedupByRoleContent, if_neg hm, List.countP_cons, ih]
      by_cases hq : (m.role, m.content) = (r, c)
      · have hqm : (decide ((m.role, m.content) = (r, c))) = true := by simpa using hq
        have hin : (r, c) ∈ (m.role, m.content) :: seen := by
          rw [← hq]; exact List.mem_cons_self _ _
        have hnin : (r, c) ∉ seen := fun hc => hm (hq ▸ hc)
        rw [if_pos hin, if_neg hnin, hqm]
        have hq2 : m.role = r ∧ m.content = c := by
          simpa [Prod.ext_iff] using hq
        simp [List.any_cons, hqm, hq2.1, hq2.2]
      · have hqm : (decide ((m.role, m.content) = (r, c))) = false := by simpa using hq
        have hiff : (r, c) ∈ (m.role, m.content) :: seen ↔ (r, c) ∈ seen := by
          simp only [List.mem_cons]
          constructor
          · rintro (h1 | h2)
            · exact absurd h1.symm hq
            · exact h2
          · exact Or.inr
        simp only [List.any_cons, hqm, Bool.false_or, hqm]
        by_cases hseen : (r, c) ∈ seen
        · rw [if_pos (hiff.mpr hseen), if_pos hseen]
          simp
        · rw [if_neg (fun hc => hseen (hiff.mp hc)), if_neg hseen]
          simp

theorem any_sortedHistory (h : List Msg) (q : Msg → Bool) :
    (sortedHistory h).any q = h.any q := by
  have hperm : List.Perm (sortedHistory h) h := List.perm_insertionSort _ h
  by_cases hb : h.any q = true
  · obtain ⟨x, hx, hqx⟩ := List.any_eq_true.mp hb
    rw [hb, List.any_eq_true.mpr ⟨x, hperm.mem_iff.mpr hx, hqx⟩]
  · have hb' : h.any q = false := by simpa using hb
    rw [hb']
    by_contra hcon
    have h1 : (sortedHistory h).any q = true := by simpa using hcon
    obtain ⟨x, hx, hqx⟩ := List.any_eq_true.mp h1
    have h2 := List.any_eq_true.mpr ⟨x, hperm.mem_iff.mp hx, hqx⟩
    rw [h2] at hb'
    cases hb'

theorem countP_messageLines (parseTs : List Char → Option (List Char × List Char)) :
    ∀ (cur : Option (List Char)) (msgs : List Msg),
      (formatEntries parseTs cur msgs).countP isMessageLine = msgs.length := by
  intro cur msgs
  induction msgs generalizing cur with
  | nil => simp [formatEntries]
  | cons m t ih =>
    cases hp : parseTs m.timestamp with
    | some dt =>
      obtain ⟨d, tm⟩ := dt
      by_cases hd : cur ≠ some d
      · simp [formatEntries, hp, hd, List.countP_append, List.countP_cons, isMessageLine, ih]
      · simp [formatEntries, hp, hd, List.countP_append, List.countP_cons, isMessageLine, ih]
    | none =>
      simp [formatEntries, hp, List.countP_cons, isMessageLine, ih]

/-- C9: in the formatted email export, any collection of messages sharing
one `(role, content)` pair — whatever their timestamps — contributes
exactly one entry: one occurrence in the deduplicated list when the pair
occurs in the history at all (none otherwise), and each deduplicated
message yields exactly one message line in the export. -/
theorem claim_C9_dedup_export (parseTs : List Char → Option (List Char × List Char))
    (h : List Msg) (r c : List Char) :
    (uniqueMessages h).countP (fun m => decide ((m.role, m.content) = (r, c))) =
      (if h.any (fun m => decide ((m.role, m.content) = (r, c))) then 1 else 0) ∧
    (formatEntries parseTs none (uniqueMessages h)).countP isMessageLine =
      (uniqueMessages h).length := by
  refine ⟨?_, countP_messageLines parseTs none (uniqueMessages h)⟩
  rw [uniqueMessages, dedup_countP]
  rw [if_neg (List.not_mem_nil _), any_sortedHistory]

/-! ## Claim C10 -/

/-- C10: with no SerpAPI key configured, every `web_search` call made by
`verify_result` returns the degraded-mode string `"No SerpAPI key found"`;
the analyzer classifies all four such responses as valid sources (its
validity test only excludes results containing `"Search failed"`), so for
every description the report contains the line `"✅ Successfully verified
with 4 sources"` while extracting no corroborating evidence — no
`"Key numbers found:"` and no `"Numbers found across sources:"` line is
emitted. -/
theorem claim_C10_no_key_verification (provider : Provider)
    (keyTerms : List Char → List Char) (desc : List Char) :
    ((verificationSearchResults none provider keyTerms desc).all
        (fun rr => decide (rr.2.2 = some noKeyMsg))) = true ∧
    ∃ lines,
      analyzeVerificationLines (verificationSearchResults none provider keyTerms desc) desc =
        .ok lines ∧
      verifyResult none provider keyTerms desc = joinNL lines ∧
      "✅ Successfully verified with 4 sources".toList ∈ lines ∧
      lines.all (fun l => !("Key numbers found:".toList.isPrefixOf l) &&
                          !("Numbers found across sources:".toList.isPrefixOf l)) = true := by
  refine ⟨rfl, _, rfl, rfl, ?_, rfl⟩
  have hsucc : "✅ Successfully verified with 4 sources".toList ∈
      analysisLines [noKeyMsg, noKeyMsg, noKeyMsg, noKeyMsg] := by decide
  apply List.mem_append_left
  apply List.mem_append_right
  exact hsucc

/-- C2, witness for the amended theorem at a concrete assistant text that
also contains an action-shaped line. -/
theorem claim_C2_amended_witness :
    (runLoop (fun _ => "Action: calculator: 1 + 1\nFinal Answer: 42".toList) [] [] 0 1).answer =
      extractFinalAnswer "Action: calculator: 1 + 1\nFinal Answer: 42".toList ∧
    (runLoop (fun _ => "Action: calculator: 1 + 1\nFinal Answer: 42".toList) [] [] 0 1).calls = 1 ∧
    ∃ pre rest, "Action: calculator: 1 + 1\nFinal Answer: 42".toList =
        pre ++ finalMarker ++ rest ∧
      containsSub finalMarker rest = false ∧
      extractFinalAnswer "Action: calculator: 1 + 1\nFinal Answer: 42".toList = pyStrip rest :=
  claim_C2_amended "Action: calculator: 1 + 1\nFinal Answer: 42".toList (by decide)
    (fun _ => "Action: calculator: 1 + 1\nFinal Answer: 42".toList) [] [] 0 0 rfl

end MemoryAgent
